import Mathlib

/-!
# Shallow embedding of the UkuvaGo angel-investment platform

This file embeds the data model and the operations of the Go backend
(`internal/models`, `internal/services`, `internal/middleware`,
`internal/handlers`) as executable Lean definitions and proves the
spec-level properties about them.

Modelling conventions:
* `uuid.UUID` primary keys are modelled as `Nat`.  GORM's `First` without an
  explicit ordering orders by primary key ascending; UUID keys carry no
  relation to insertion or signing time, so the `Nat` order stands for an
  arbitrary fixed key order.
* `time.Time` is modelled as `Int` (a point on a time line); `t.Before u`
  is `t < u` and `t.After u` is `u < t`, both strict, exactly as in Go.
  Calendar additions (`AddDate`) are modelled as adding a positive constant;
  the properties proved depend only on the ordering of instants.
* The relational store is modelled as in-memory lists of records; a GORM
  `Save` on a fetched record writes back through the primary key.
* `float64` monetary fields are modelled as exact rationals `ℚ`; the code
  only copies and compares these values (and divides a whole number of
  cents by 100), operations on which IEEE doubles are exact in the ranges
  the service produces.
-/

namespace Ukuvago

/-- Primary keys (`uuid.UUID` in Go) modelled as naturals. -/
abbrev UUID := Nat

/-- User roles (`internal/models/user.go`). -/
inductive Role where
  | investor
  | developer
  | admin
deriving DecidableEq, Repr

/-! ## Payments (`internal/models/payment.go`, file `part_014`) -/

/-- `PaymentStatus` constants. -/
inductive PaymentStatus where
  | pending
  | completed
  | failed
  | refunded
deriving DecidableEq, Repr

/-- `models.Payment`: the fields the payment workflow reads and writes.
`Amount` is in cents (`int64`); `ProjectsRemaining`/`ProjectsTotal` are Go
`int`, modelled as `Int` so that signedness is visible. -/
structure Payment where
  id : UUID
  investorID : UUID
  amount : Int
  currency : String
  status : PaymentStatus
  projectsRemaining : Int
  projectsTotal : Int
  createdAt : Int
  completedAt : Option Int
deriving DecidableEq, Repr

/-- `Payment.CanViewMore`: completed status and a strictly positive
remaining-views counter. -/
def Payment.CanViewMore (p : Payment) : Bool :=
  p.status == PaymentStatus.completed && decide (0 < p.projectsRemaining)

/-- `Payment.UseCredit`: decrement the counter only when it is strictly
positive; returns the updated record and whether a credit was spent. -/
def Payment.UseCredit (p : Payment) : Payment × Bool :=
  if 0 < p.projectsRemaining then
    ({ p with projectsRemaining := p.projectsRemaining - 1 }, true)
  else
    (p, false)

/-- `models.ProjectView`: join record marking that an investor has unlocked
a project against a payment. -/
structure ProjectView where
  investorID : UUID
  projectID : UUID
  paymentID : UUID
  viewedAt : Int
deriving DecidableEq, Repr

/-- The slice of the relational store the payment service touches. -/
structure PaymentDB where
  payments : List Payment
  views : List ProjectView
deriving DecidableEq, Repr

/-- `ORDER BY created_at DESC ... First`: pick the record with the largest
`created_at` (keeping the earlier list element on ties, which models an
arbitrary but fixed tie-break of the store). -/
def firstByCreatedDesc : List Payment → Option Payment
  | [] => none
  | p :: ps =>
    match firstByCreatedDesc ps with
    | none => some p
    | some q => if q.createdAt > p.createdAt then some q else some p

/-- `PaymentService.GetActivePayment`: the newest payment of the investor in
`completed` status with `projects_remaining > 0`, or an error (`none`). -/
def GetActivePayment (investorID : UUID) (db : PaymentDB) : Option Payment :=
  firstByCreatedDesc (db.payments.filter fun p =>
    p.investorID == investorID && p.status == PaymentStatus.completed &&
      decide (0 < p.projectsRemaining))

/-- `PaymentService.HasViewedProject`: a `ProjectView` row exists for the
(investor, project) pair. -/
def HasViewedProject (investorID projectID : UUID) (db : PaymentDB) : Bool :=
  db.views.any fun v => v.investorID == investorID && v.projectID == projectID

/-- `PaymentService.UseViewCredit`: if the pair was already viewed, succeed
without touching the store; otherwise fetch the active payment, re-check
`CanViewMore`, insert the view record and decrement that payment's counter
(written back through its primary key). Errors leave the store unchanged. -/
def UseViewCredit (investorID projectID : UUID) (now : Int) (db : PaymentDB) :
    Except String PaymentDB :=
  if HasViewedProject investorID projectID db then
    Except.ok db
  else
    match GetActivePayment investorID db with
    | none => Except.error "no active payment with available views"
    | some payment =>
      if payment.CanViewMore then
        let view : ProjectView :=
          { investorID := investorID, projectID := projectID
            paymentID := payment.id, viewedAt := now }
        let payment' := { payment with projectsRemaining := payment.projectsRemaining - 1 }
        Except.ok
          { payments := db.payments.map fun p => if p.id == payment.id then payment' else p
            views := db.views ++ [view] }
      else
        Except.error "no remaining project views"

/-- Outcome of the investor branch of `ProjectHandler.GetProject`. -/
inductive ProjectViewOutcome where
  | fullAccess
  | publicOnly (msg : String)
deriving DecidableEq, Repr

/-- The investor path of `ProjectHandler.GetProject` (part_007, lines
99–121): an already-viewed project is served in full without consuming
anything; otherwise `UseViewCredit` runs and a failure downgrades the
response to public info with the store untouched. -/
def getProjectInvestorView (investorID projectID : UUID) (now : Int) (db : PaymentDB) :
    ProjectViewOutcome × PaymentDB :=
  if HasViewedProject investorID projectID db then
    (ProjectViewOutcome.fullAccess, db)
  else
    match UseViewCredit investorID projectID now db with
    | Except.error e => (ProjectViewOutcome.publicOnly e, db)
    | Except.ok db' => (ProjectViewOutcome.fullAccess, db')

/-! ## Payment middleware (`internal/middleware/payment.go`) -/

/-- Result of a gate middleware: abort with 401, pass through for
non-investor roles, abort with 403 and a machine-readable code, or call the
next handler with the context values the middleware set. -/
inductive GateResult where
  | unauthorized
  | pass
  | forbidden (code : String)
  | next (recordID : UUID) (remaining : Int)
deriving DecidableEq, Repr

/-- `middleware.RequirePayment`: authentication, role bypass, then
`GetActivePayment` (absence aborts with `PAYMENT_REQUIRED`) and a
`CanViewMore` re-check (failure aborts with `NO_VIEWS_REMAINING`). -/
def RequirePayment (auth : Option (UUID × Role)) (db : PaymentDB) : GateResult :=
  match auth with
  | none => GateResult.unauthorized
  | some (userID, role) =>
    if role ≠ Role.investor then GateResult.pass
    else
      match GetActivePayment userID db with
      | none => GateResult.forbidden "PAYMENT_REQUIRED"
      | some payment =>
        if payment.CanViewMore then
          GateResult.next payment.id payment.projectsRemaining
        else
          GateResult.forbidden "NO_VIEWS_REMAINING"

/-! ## NDAs (`internal/models/team.go`, `internal/middleware` `RequireNDA`,
`NDAHandler` in the handlers package) -/

/-- `models.NDA`: the fields the signing flow reads and writes. -/
structure NDA where
  id : UUID
  investorID : UUID
  signatureData : String
  signedName : String
  ipAddress : String
  signedAt : Int
  expiresAt : Option Int
  version : String
deriving DecidableEq, Repr

/-- `NDA.IsValid`: a missing expiry is treated as valid; otherwise valid
exactly when `time.Now().Before(*ExpiresAt)`, i.e. strictly before. -/
def NDA.IsValid (now : Int) (n : NDA) : Bool :=
  match n.expiresAt with
  | none => true
  | some e => decide (now < e)

/-- `ORDER BY signed_at DESC ... First` over NDAs: the most recently signed
record (earlier element kept on ties). -/
def latestBySignedAt : List NDA → Option NDA
  | [] => none
  | n :: ns =>
    match latestBySignedAt ns with
    | none => some n
    | some m => if m.signedAt > n.signedAt then some m else some n

/-- `First` over NDAs with no ordering clause: GORM orders by primary key
ascending, so the record with the smallest key is consulted. -/
def firstByPrimaryKey : List NDA → Option NDA
  | [] => none
  | n :: ns =>
    match firstByPrimaryKey ns with
    | none => some n
    | some m => if m.id < n.id then some m else some n

/-- `middleware.RequireNDA`: authentication, role bypass, then the latest
NDA of the investor: absence aborts with `NDA_REQUIRED`, an invalid one with
`NDA_EXPIRED`. -/
def RequireNDA (auth : Option (UUID × Role)) (now : Int) (ndas : List NDA) : GateResult :=
  match auth with
  | none => GateResult.unauthorized
  | some (userID, role) =>
    if role ≠ Role.investor then GateResult.pass
    else
      match latestBySignedAt (ndas.filter fun n => n.investorID == userID) with
      | none => GateResult.forbidden "NDA_REQUIRED"
      | some nda =>
        if nda.IsValid now then GateResult.next nda.id 0
        else GateResult.forbidden "NDA_EXPIRED"

/-- `SignNDARequest` body (`signature_data`, `signed_name`, `agreed`). -/
structure SignNDARequest where
  signatureData : String
  signedName : String
  agreed : Bool
deriving DecidableEq, Repr

/-- Outcome of `NDAHandler.SignNDA`. -/
inductive SignNDAResult where
  | badRequest (msg : String)
  | created (ndaID : UUID)
deriving DecidableEq, Repr

/-- The NDA validity period `time.Now().AddDate(2, 0, 0)`; two calendar
years modelled as a fixed positive duration. -/
def ndaValidityPeriod : Int := 2 * 365 * 86400

/-- `NDAHandler.SignNDA` (after authentication and user lookup): reject a
non-agreeing request; fetch the investor's first NDA *by primary key* (the
query has no ordering clause) and reject when that record is still valid;
otherwise create a fresh NDA expiring `ndaValidityPeriod` after `now`. -/
def SignNDA (userID : UUID) (req : SignNDARequest) (ip : String) (now : Int)
    (ndas : List NDA) (newID : UUID) : SignNDAResult × List NDA :=
  if ¬ req.agreed then
    (SignNDAResult.badRequest "You must agree to the NDA terms", ndas)
  else
    let proceed : SignNDAResult × List NDA :=
      let nda : NDA :=
        { id := newID, investorID := userID
          signatureData := req.signatureData, signedName := req.signedName
          ipAddress := ip, signedAt := now
          expiresAt := some (now + ndaValidityPeriod), version := "1.0" }
      (SignNDAResult.created newID, ndas ++ [nda])
    match firstByPrimaryKey (ndas.filter fun n => n.investorID == userID) with
    | none => proceed
    | some existing =>
      if existing.IsValid now then
        (SignNDAResult.badRequest "You have already signed a valid NDA", ndas)
      else
        proceed

/-! ## Projects and admin moderation (`internal/handlers/admin.go`) -/

/-- `ProjectStatus` lifecycle constants. -/
inductive ProjectStatus where
  | draft
  | pending
  | approved
  | rejected
deriving DecidableEq, Repr

/-- `models.Project`: the fields the moderation and offer flows read. -/
structure Project where
  id : UUID
  developerID : UUID
  status : ProjectStatus
  minInvestment : ℚ
  valuationCap : ℚ
  rejectionReason : String
  approvedAt : Option Int
  viewCount : Int
deriving DecidableEq, Repr

/-- `First` over projects by primary key. -/
def findProjectByID (pid : UUID) (projects : List Project) : Option Project :=
  projects.find? fun p => p.id == pid

/-- `ApproveProjectRequest` body: `approved` flag, rejection `reason`. -/
structure ApproveProjectRequest where
  approved : Bool
  reason : String
deriving DecidableEq, Repr

/-- Outcome of `AdminHandler.ApproveProject`. -/
inductive ApproveResult where
  | notFound
  | badRequest (msg : String)
  | ok
deriving DecidableEq, Repr

/-- `AdminHandler.ApproveProject`: only a `pending` project may be acted on;
approval sets status `approved`, stamps `ApprovedAt` and clears the
rejection reason; a rejection without a reason is refused; otherwise the
status becomes `rejected` with the reason stored.  Failures leave the
project list unchanged. -/
def ApproveProject (pid : UUID) (req : ApproveProjectRequest) (now : Int)
    (projects : List Project) : ApproveResult × List Project :=
  match findProjectByID pid projects with
  | none => (ApproveResult.notFound, projects)
  | some project =>
    if project.status ≠ ProjectStatus.pending then
      (ApproveResult.badRequest "Project is not pending review", projects)
    else if req.approved then
      let project' := { project with
        status := ProjectStatus.approved, approvedAt := some now, rejectionReason := "" }
      (ApproveResult.ok,
        projects.map fun p => if p.id == project.id then project' else p)
    else if req.reason = "" then
      (ApproveResult.badRequest "Rejection reason is required", projects)
    else
      let project' := { project with
        status := ProjectStatus.rejected, rejectionReason := req.reason }
      (ApproveResult.ok,
        projects.map fun p => if p.id == project.id then project' else p)

/-! ## Offers and term sheets (`models` in `part_013`, `OfferHandler` and
`TermSheetHandler` in `part_007`, `DocumentService` in
`internal/services/document_service.go`) -/

/-- `OfferStatus` constants. -/
inductive OfferStatus where
  | pending
  | accepted
  | rejected
  | withdrawn
  | expired
deriving DecidableEq, Repr

/-- `models.InvestmentOffer`: the fields the offer workflow reads and
writes. -/
structure InvestmentOffer where
  id : UUID
  investorID : UUID
  projectID : UUID
  offerAmount : ℚ
  equityRequest : ℚ
  termsNotes : String
  status : OfferStatus
  responseNotes : String
  expiresAt : Option Int
  respondedAt : Option Int
deriving DecidableEq, Repr

/-- `InvestmentOffer.IsExpired`: `time.Now().After(*ExpiresAt)` — strictly
after the expiry instant; a missing expiry never expires. -/
def InvestmentOffer.IsExpired (now : Int) (o : InvestmentOffer) : Bool :=
  match o.expiresAt with
  | none => false
  | some e => decide (e < now)

/-- `InvestmentOffer.CanRespond`: pending and not expired. -/
def InvestmentOffer.CanRespond (now : Int) (o : InvestmentOffer) : Bool :=
  o.status == OfferStatus.pending && ! o.IsExpired now

/-- A pending offer by `inv` on `proj`: the boolean form of the query
`investor_id = ? AND project_id = ? AND status = 'pending'`. -/
def pendingFor (inv proj : UUID) (o : InvestmentOffer) : Bool :=
  o.investorID == inv && o.projectID == proj && o.status == OfferStatus.pending

/-- At most one pending offer per (investor, project) pair is on file. -/
def atMostOnePendingPerPair (offers : List InvestmentOffer) : Prop :=
  ∀ inv proj : UUID, (offers.filter (pendingFor inv proj)).length ≤ 1

/-- `TermSheetStatus` constants. -/
inductive TermSheetStatus where
  | draft
  | investorSigned
  | completed
  | voided
deriving DecidableEq, Repr

/-- `models.TermSheet`: the fields the signing workflow reads and writes. -/
structure TermSheet where
  id : UUID
  offerID : UUID
  investorSignature : String
  developerSignature : String
  investorSignedAt : Option Int
  developerSignedAt : Option Int
  investorIP : String
  developerIP : String
  status : TermSheetStatus
  investmentAmount : ℚ
  valuationCap : ℚ
  discountRate : ℚ
  proRataRights : Bool
deriving DecidableEq, Repr

/-- `TermSheet.IsFullySigned`: both signature blobs are non-empty. -/
def TermSheet.IsFullySigned (t : TermSheet) : Bool :=
  t.investorSignature ≠ "" && t.developerSignature ≠ ""

/-- The slice of the relational store the offer workflow touches. -/
structure OfferDB where
  offers : List InvestmentOffer
  termSheets : List TermSheet
deriving DecidableEq, Repr

/-- `First` over offers by primary key. -/
def findOfferByID (oid : UUID) (offers : List InvestmentOffer) : Option InvestmentOffer :=
  offers.find? fun o => o.id == oid

/-- `First` over term sheets by primary key. -/
def findTermSheetByID (tid : UUID) (sheets : List TermSheet) : Option TermSheet :=
  sheets.find? fun t => t.id == tid

/-- `CreateOfferRequest` body. -/
structure CreateOfferRequest where
  projectID : UUID
  offerAmount : ℚ
  equityRequest : ℚ
  termsNotes : String
deriving DecidableEq, Repr

/-- Outcome of an offer-handler endpoint. -/
inductive OfferResult where
  | clientError (msg : String)
  | ok
deriving DecidableEq, Repr

/-- The offer validity period `time.Now().AddDate(0, 0, 30)`; thirty days. -/
def offerValidityPeriod : Int := 30 * 86400

/-- `OfferHandler.CreateOffer` (after authentication and body binding): the
project must exist in `approved` status; the amount must reach the minimum
investment; a pending offer by the same investor on the same project
rejects the request; otherwise a fresh pending offer expiring thirty days
out is inserted. -/
def CreateOffer (userID : UUID) (req : CreateOfferRequest) (now : Int)
    (projects : List Project) (db : OfferDB) (newID : UUID) : OfferResult × OfferDB :=
  match projects.find? fun p => p.id == req.projectID && p.status == ProjectStatus.approved with
  | none => (OfferResult.clientError "Project not found or not available", db)
  | some project =>
    if req.offerAmount < project.minInvestment then
      (OfferResult.clientError "Offer below minimum investment", db)
    else if db.offers.any (pendingFor userID req.projectID) then
      (OfferResult.clientError "You already have a pending offer for this project", db)
    else
      let offer : InvestmentOffer :=
        { id := newID, investorID := userID, projectID := req.projectID
          offerAmount := req.offerAmount, equityRequest := req.equityRequest
          termsNotes := req.termsNotes, status := OfferStatus.pending
          responseNotes := "", expiresAt := some (now + offerValidityPeriod)
          respondedAt := none }
      (OfferResult.ok, { db with offers := db.offers ++ [offer] })

/-- `RespondOfferRequest` body: the `oneof=accept reject` binding restricts
`action` to those two strings before the handler body runs. -/
structure RespondOfferRequest where
  action : String
  responseNotes : String
  valuationCap : ℚ
  discountRate : ℚ
deriving DecidableEq, Repr

/-- `OfferHandler.RespondToOffer` (after authentication and body binding):
the offer must exist and its project must belong to the caller; `CanRespond`
gates the state change; acceptance stamps the response, sets `accepted` and
creates a draft term sheet (defaulting valuation cap and discount rate);
rejection stamps the response and sets `rejected`.  Failures leave the
store unchanged. -/
def RespondToOffer (userID oid : UUID) (req : RespondOfferRequest) (now : Int)
    (projects : List Project) (db : OfferDB) (newTsID : UUID) : OfferResult × OfferDB :=
  match findOfferByID oid db.offers with
  | none => (OfferResult.clientError "Offer not found", db)
  | some offer =>
    match findProjectByID offer.projectID projects with
    | none => (OfferResult.clientError "Offer not found", db)
    | some project =>
      if project.developerID ≠ userID then
        (OfferResult.clientError "Access denied", db)
      else if ¬ offer.CanRespond now then
        (OfferResult.clientError "Cannot respond to this offer", db)
      else
        let accepted := req.action = "accept"
        if accepted then
          let termSheet : TermSheet :=
            { id := newTsID, offerID := offer.id
              investorSignature := "", developerSignature := ""
              investorSignedAt := none, developerSignedAt := none
              investorIP := "", developerIP := ""
              status := TermSheetStatus.draft
              investmentAmount := offer.offerAmount
              valuationCap := if req.valuationCap = 0 then project.valuationCap else req.valuationCap
              discountRate := if req.discountRate = 0 then 20 else req.discountRate
              proRataRights := true }
          let offer' := { offer with
            respondedAt := some now, responseNotes := req.responseNotes
            status := OfferStatus.accepted }
          (OfferResult.ok,
            { offers := db.offers.map fun o => if o.id == offer.id then offer' else o
              termSheets := db.termSheets ++ [termSheet] })
        else
          let offer' := { offer with
            respondedAt := some now, responseNotes := req.responseNotes
            status := OfferStatus.rejected }
          (OfferResult.ok,
            { db with offers := db.offers.map fun o => if o.id == offer.id then offer' else o })

/-- `DocumentService.SignTermSheet`: fetch the term sheet and its offer;
an investor signature fills the investor fields and completes the sheet
when the developer has already signed (otherwise `investor_signed`); a
developer signature fills the developer fields and completes the sheet when
the investor has already signed (otherwise the status is left as is); any
other caller is refused.  (A missing project row would make the developer
check dereference a nil pointer in Go; term sheets only arise from offers
on existing projects, and the model folds that fault into the
authorization error.)  The updated sheet is saved back by primary key. -/
def SignTermSheet (tsID userID : UUID) (signatureData ipAddress : String) (now : Int)
    (projects : List Project) (db : OfferDB) : Except String (TermSheet × OfferDB) :=
  match findTermSheetByID tsID db.termSheets with
  | none => Except.error "record not found"
  | some termSheet =>
    match findOfferByID termSheet.offerID db.offers with
    | none => Except.error "record not found"
    | some offer =>
      if offer.investorID == userID then
        let termSheet' := { termSheet with
          investorSignature := signatureData
          investorSignedAt := some now
          investorIP := ipAddress
          status := if termSheet.developerSignature ≠ "" then TermSheetStatus.completed
                    else TermSheetStatus.investorSigned }
        Except.ok (termSheet',
          { db with termSheets := db.termSheets.map fun t =>
              if t.id == termSheet.id then termSheet' else t })
      else
        match findProjectByID offer.projectID projects with
        | some project =>
          if project.developerID == userID then
            let termSheet' := { termSheet with
              developerSignature := signatureData
              developerSignedAt := some now
              developerIP := ipAddress
              status := if termSheet.investorSignature ≠ "" then TermSheetStatus.completed
                        else termSheet.status }
            Except.ok (termSheet',
              { db with termSheets := db.termSheets.map fun t =>
                  if t.id == termSheet.id then termSheet' else t })
          else
            Except.error "user not authorized to sign this term sheet"
        | none => Except.error "user not authorized to sign this term sheet"

/-! ## Payment confirmation and operation sequences (`part_013`) -/

/-- `PaymentService.ConfirmPayment` / `DemoConfirmPayment` with the Stripe
round-trip elided (it only gates success and fills the receipt URL): only a
`pending` payment flips to `completed`; the counters are untouched. -/
def ConfirmPayment (paymentID : UUID) (now : Int) (db : PaymentDB) :
    Except String PaymentDB :=
  match db.payments.find? fun p => p.id == paymentID with
  | none => Except.error "payment not found"
  | some payment =>
    if payment.status ≠ PaymentStatus.pending then
      Except.error "payment already processed"
    else
      let payment' := { payment with
        status := PaymentStatus.completed, completedAt := some now }
      Except.ok { db with
        payments := db.payments.map fun p => if p.id == paymentID then payment' else p }

/-- The operations of the payment service that run against the store once a
bundle exists: consuming a view credit and confirming a payment. -/
inductive PaymentOp where
  | useView (investorID projectID : UUID) (now : Int)
  | confirm (paymentID : UUID) (now : Int)
deriving DecidableEq, Repr

/-- Apply one operation; a failing operation leaves the store unchanged
(the service returns the error without writing). -/
def PaymentDB.applyOp (db : PaymentDB) : PaymentOp → PaymentDB
  | PaymentOp.useView inv proj now =>
    match UseViewCredit inv proj now db with
    | Except.ok db' => db'
    | Except.error _ => db
  | PaymentOp.confirm pid now =>
    match ConfirmPayment pid now db with
    | Except.ok db' => db'
    | Except.error _ => db

/-- Apply a sequence of operations in order. -/
def PaymentDB.applyOps (db : PaymentDB) (ops : List PaymentOp) : PaymentDB :=
  ops.foldl PaymentDB.applyOp db

/-- Every payment on file has a non-negative remaining-views counter. -/
def nonnegRemaining (db : PaymentDB) : Prop :=
  ∀ p ∈ db.payments, 0 ≤ p.projectsRemaining

instance (db : PaymentDB) : Decidable (nonnegRemaining db) :=
  inferInstanceAs (Decidable (∀ p ∈ db.payments, 0 ≤ p.projectsRemaining))

/-! ## Amount formatting (`part_014`: `formatFloat`, `formatCurrency`,
`Payment.ToResponse`).  `float64` values are modelled as exact rationals;
for the whole-cent amounts the service stores, `float64(amount) / 100` and
the integrality test `f == float64(int64(f))` are exact in IEEE double
arithmetic throughout the representable range used here. -/

/-- Go's `int64(f)`: truncation toward zero. -/
def goTrunc (q : ℚ) : Int :=
  if 0 ≤ q then ⌊q⌋ else ⌈q⌉

/-- Go's `rune(n)` for an `int64` argument: a wrapping conversion to the
32-bit signed range. -/
def toRune (n : Int) : Int :=
  (n + 2 ^ 31) % 2 ^ 32 - 2 ^ 31

/-- Go's `string(r)` conversion of a rune: the one-character string of the
code point when it is a valid Unicode scalar value, and the replacement
character U+FFFD otherwise.  It is never a decimal rendering of `r`. -/
def goStringOfRune (r : Int) : String :=
  if (0 ≤ r ∧ r < 0xD800) ∨ (0xDFFF < r ∧ r ≤ 0x10FFFF) then
    String.singleton (Char.ofNat r.toNat)
  else
    String.singleton (Char.ofNat 0xFFFD)

/-- `formatFloat`: on an integral value, `string(rune(int64(f)))` — the
character at code point `int64(f)` — and the empty string otherwise. -/
def formatFloat (f : ℚ) : String :=
  if f = (goTrunc f : ℚ) then goStringOfRune (toRune (goTrunc f)) else ""

/-- `formatCurrency`: currency symbol next to `formatFloat` of the major
units `float64(amount) / 100`. -/
def formatCurrency (amount : Int) (currency : String) : String :=
  let major : ℚ := (amount : ℚ) / 100
  if currency = "zar" then "R" ++ formatFloat major
  else if currency = "eur" then "€" ++ formatFloat major
  else if currency = "gbp" then "£" ++ formatFloat major
  else "$" ++ formatFloat major

/-- `models.PaymentResponse`: the API-safe projection of a payment. -/
structure PaymentResponse where
  id : UUID
  amount : Int
  amountFormatted : String
  currency : String
  status : PaymentStatus
  projectsRemaining : Int
  projectsTotal : Int
  createdAt : Int
  completedAt : Option Int
deriving DecidableEq, Repr

/-- `Payment.ToResponse`. -/
def Payment.ToResponse (p : Payment) : PaymentResponse :=
  { id := p.id, amount := p.amount
    amountFormatted := formatCurrency p.amount p.currency
    currency := p.currency, status := p.status
    projectsRemaining := p.projectsRemaining, projectsTotal := p.projectsTotal
    createdAt := p.createdAt, completedAt := p.completedAt }

/-- A term sheet's derived status matches the presence of both
signatures. -/
def completedIffFullySigned (t : TermSheet) : Prop :=
  t.status = TermSheetStatus.completed ↔ t.IsFullySigned = true

instance (t : TermSheet) : Decidable (completedIffFullySigned t) :=
  inferInstanceAs (Decidable (t.status = TermSheetStatus.completed ↔ t.IsFullySigned = true))

/-! ## Sample records (concrete instantiations for the theorems below) -/

/-- A completed four-view payment bundle of investor `7`. -/
def samplePayment : Payment :=
  { id := 1, investorID := 7, amount := 50000, currency := "usd"
    status := PaymentStatus.completed, projectsRemaining := 4, projectsTotal := 4
    createdAt := 10, completedAt := some 11 }

/-- A store in which investor `7` has already unlocked project `42`. -/
def sampleViewedDB : PaymentDB :=
  { payments := [samplePayment]
    views := [{ investorID := 7, projectID := 42, paymentID := 1, viewedAt := 5 }] }

/-- A store with a fresh bundle and no views yet. -/
def sampleFreshDB : PaymentDB :=
  { payments := [samplePayment], views := [] }

/-- A store whose only payment is completed but exhausted
(`projects_remaining = 0`). -/
def exhaustedPaymentDB : PaymentDB :=
  { payments := [{ samplePayment with projectsRemaining := 0 }], views := [] }

/-- An NDA of investor `7` that expired at instant `50`. -/
def sampleExpiredNDA : NDA :=
  { id := 1, investorID := 7, signatureData := "sig-a", signedName := "Ada"
    ipAddress := "10.0.0.1", signedAt := 0, expiresAt := some 50, version := "1.0" }

/-- An NDA of investor `7` signed later, valid until instant `1000`; its
primary key sorts after `sampleExpiredNDA`'s. -/
def sampleValidNDA : NDA :=
  { id := 2, investorID := 7, signatureData := "sig-b", signedName := "Ada"
    ipAddress := "10.0.0.1", signedAt := 40, expiresAt := some 1000, version := "1.0" }

/-- A well-formed NDA signing request. -/
def sampleSignNDARequest : SignNDARequest :=
  { signatureData := "sig-c", signedName := "Ada", agreed := true }

/-- An approved project of developer `3` with valuation data. -/
def sampleProject : Project :=
  { id := 42, developerID := 3, status := ProjectStatus.approved
    minInvestment := 1000, valuationCap := 500000, rejectionReason := ""
    approvedAt := some 9, viewCount := 0 }

/-- A project still pending review. -/
def samplePendingProject : Project :=
  { id := 43, developerID := 3, status := ProjectStatus.pending
    minInvestment := 1000, valuationCap := 500000, rejectionReason := ""
    approvedAt := none, viewCount := 0 }

/-- A pending offer of investor `7` on project `42`, expiring at `2000`. -/
def samplePendingOffer : InvestmentOffer :=
  { id := 5, investorID := 7, projectID := 42, offerAmount := 2000
    equityRequest := 5, termsNotes := "", status := OfferStatus.pending
    responseNotes := "", expiresAt := some 2000, respondedAt := none }

/-- The same offer already accepted. -/
def sampleAcceptedOffer : InvestmentOffer :=
  { samplePendingOffer with status := OfferStatus.accepted, respondedAt := some 100 }

/-- A draft term sheet for `sampleAcceptedOffer` with neither signature. -/
def sampleDraftTermSheet : TermSheet :=
  { id := 9, offerID := 5, investorSignature := "", developerSignature := ""
    investorSignedAt := none, developerSignedAt := none
    investorIP := "", developerIP := "", status := TermSheetStatus.draft
    investmentAmount := 2000, valuationCap := 500000, discountRate := 20
    proRataRights := true }

/-- An offer store holding the accepted offer and its draft sheet. -/
def sampleSigningDB : OfferDB :=
  { offers := [sampleAcceptedOffer], termSheets := [sampleDraftTermSheet] }

/-- An offer store holding just the pending offer. -/
def samplePendingOfferDB : OfferDB :=
  { offers := [samplePendingOffer], termSheets := [] }

/-- An offer store holding just the accepted (already responded) offer. -/
def sampleRespondedOfferDB : OfferDB :=
  { offers := [sampleAcceptedOffer], termSheets := [] }

/-- A repeat offer request by investor `7` on project `42`. -/
def sampleCreateOfferRequest : CreateOfferRequest :=
  { projectID := 42, offerAmount := 3000, equityRequest := 6, termsNotes := "" }

/-- An accept response carrying explicit SAFE terms. -/
def sampleRespondRequest : RespondOfferRequest :=
  { action := "accept", responseNotes := "ok", valuationCap := 600000, discountRate := 15 }

/-- `sampleDraftTermSheet` after the investor signs at instant `200`. -/
def sampleSignedTermSheet : TermSheet :=
  { sampleDraftTermSheet with
      investorSignature := "ink", investorSignedAt := some 200
      investorIP := "9.9.9.9", status := TermSheetStatus.investorSigned }

/-- `sampleSigningDB` after that signature is saved. -/
def sampleSignedDB : OfferDB :=
  { offers := [sampleAcceptedOffer], termSheets := [sampleSignedTermSheet] }

/-- The symbol each branch of `formatCurrency`'s switch places in front of
the formatted major units. -/
def currencySymbol (currency : String) : String :=
  if currency = "zar" then "R"
  else if currency = "eur" then "€"
  else if currency = "gbp" then "£"
  else "$"

/-! ## Helper lemmas -/

/-- The record picked by `ORDER BY created_at DESC ... First` is on file. -/
theorem firstByCreatedDesc_mem {ps : List Payment} {p : Payment}
    (h : firstByCreatedDesc ps = some p) : p ∈ ps := by
  induction ps with
  | nil => simp [firstByCreatedDesc] at h
  | cons q qs ih =>
    rw [firstByCreatedDesc] at h
    split at h
    · simp only [Option.some.injEq] at h
      simp [h]
    · rename_i r hq
      split at h
      · simp only [Option.some.injEq] at h
        subst h
        exact List.mem_cons_of_mem q (ih hq)
      · simp only [Option.some.injEq] at h
        simp [h]

/-- Whatever `GetActivePayment` returns is a payment on file of the given
investor, in `completed` status, with views remaining. -/
theorem getActivePayment_spec {inv : UUID} {db : PaymentDB} {p : Payment}
    (h : GetActivePayment inv db = some p) :
    p ∈ db.payments ∧ p.investorID = inv ∧ p.status = PaymentStatus.completed ∧
      0 < p.projectsRemaining := by
  have hmem := firstByCreatedDesc_mem h
  rw [List.mem_filter] at hmem
  obtain ⟨hp, hpred⟩ := hmem
  simp only [Bool.and_eq_true, beq_iff_eq, decide_eq_true_eq] at hpred
  exact ⟨hp, hpred.1.1, hpred.1.2, hpred.2⟩

/-- An active payment always passes the `CanViewMore` re-check. -/
theorem getActivePayment_canViewMore {inv : UUID} {db : PaymentDB} {p : Payment}
    (h : GetActivePayment inv db = some p) : p.CanViewMore = true := by
  obtain ⟨-, -, h1, h2⟩ := getActivePayment_spec h
  simp [Payment.CanViewMore, h1, h2]

/-! ## Claim theorems -/

/-- Claim C1: once a `ProjectView` record exists for an (investor, project)
pair, `UseViewCredit` succeeds without changing the store — no new view
record, no decremented payment — and the `GetProject` investor path serves
the project in full with the store untouched.  The already-viewed check
runs before any credit is consumed, so repeat access is idempotent. -/
theorem repeat_view_leaves_ledger_unchanged
    (inv proj : UUID) (now : Int) (db : PaymentDB)
    (h : HasViewedProject inv proj db = true) :
    UseViewCredit inv proj now db = Except.ok db ∧
    getProjectInvestorView inv proj now db = (ProjectViewOutcome.fullAccess, db) := by
  constructor
  · rw [UseViewCredit, if_pos h]
  · rw [getProjectInvestorView, if_pos h]

/-- Witness for C1: investor `7` has already unlocked project `42`; a
further `UseViewCredit` and a further `GetProject` leave the store as
it was. -/
theorem repeat_view_leaves_ledger_unchanged_witness :
    UseViewCredit 7 42 100 sampleViewedDB = Except.ok sampleViewedDB ∧
    getProjectInvestorView 7 42 100 sampleViewedDB =
      (ProjectViewOutcome.fullAccess, sampleViewedDB) :=
  repeat_view_leaves_ledger_unchanged 7 42 100 sampleViewedDB (by decide)

/-- Claim C3 (divergence): an investor whose only payment is completed but
exhausted is rejected with `PAYMENT_REQUIRED`, not `NO_VIEWS_REMAINING`:
`GetActivePayment` filters on `projects_remaining > 0`, so the middleware's
`NO_VIEWS_REMAINING` branch can never fire. -/
theorem exhausted_payment_yields_payment_required :
    RequirePayment (some (7, Role.investor)) exhaustedPaymentDB =
      GateResult.forbidden "PAYMENT_REQUIRED" ∧
    ∀ (auth : Option (UUID × Role)) (db : PaymentDB),
      RequirePayment auth db ≠ GateResult.forbidden "NO_VIEWS_REMAINING" := by
  refine ⟨by decide, ?_⟩
  intro auth db
  cases auth with
  | none => simp [RequirePayment]
  | some pair =>
    obtain ⟨uid, role⟩ := pair
    by_cases hr : role ≠ Role.investor
    · simp [RequirePayment, hr]
    · cases hg : GetActivePayment uid db with
      | none => simp [RequirePayment, hr, hg]
      | some p =>
        simp [RequirePayment, hr, hg, getActivePayment_canViewMore hg]

/-- Claim C4: with an expiry on record, `NDA.IsValid` holds exactly when
the current instant is strictly before it; consequently, once the expiry
has passed, the access gate answers `NDA_EXPIRED` whenever this NDA is the
latest one, and the signing handler never refuses a new signature on
account of this NDA. -/
theorem nda_valid_iff_now_before_expiry
    (now : Int) (n : NDA) (e : Int) (hexp : n.expiresAt = some e) :
    (n.IsValid now = true ↔ now < e) ∧
    (e ≤ now →
      (∀ (uid : UUID) (ndas : List NDA),
          latestBySignedAt (ndas.filter fun m => m.investorID == uid) = some n →
          RequireNDA (some (uid, Role.investor)) now ndas =
            GateResult.forbidden "NDA_EXPIRED") ∧
      ∀ (uid newID : UUID) (req : SignNDARequest) (ip : String) (ndas : List NDA),
          firstByPrimaryKey (ndas.filter fun m => m.investorID == uid) = some n →
          (SignNDA uid req ip now ndas newID).1 ≠
            SignNDAResult.badRequest "You have already signed a valid NDA") := by
  have hval : ∀ b : Bool, n.IsValid now = b ↔ (decide (now < e) = b) := by
    intro b; rw [NDA.IsValid, hexp]
  constructor
  · rw [hval true]; simp
  · intro hle
    have hfalse : n.IsValid now = false := by
      rw [hval false]; simpa using not_lt.mpr hle
    constructor
    · intro uid ndas hlatest
      rw [RequireNDA]
      simp [hlatest, hfalse]
    · intro uid newID req ip ndas hfirst
      rw [SignNDA]
      by_cases ha : req.agreed
      · simp [ha, hfirst, hfalse]
      · simp [ha]

/-- Witness for C4: `sampleExpiredNDA` expired at instant `50`; at instant
`100` it is invalid, the gate rejects with `NDA_EXPIRED`, and signing is
not blocked by it. -/
theorem nda_valid_iff_now_before_expiry_witness :
    (sampleExpiredNDA.IsValid 100 = true ↔ (100 : Int) < 50) ∧
    ((50 : Int) ≤ 100 →
      (∀ (uid : UUID) (ndas : List NDA),
          latestBySignedAt (ndas.filter fun m => m.investorID == uid) =
            some sampleExpiredNDA →
          RequireNDA (some (uid, Role.investor)) 100 ndas =
            GateResult.forbidden "NDA_EXPIRED") ∧
      ∀ (uid newID : UUID) (req : SignNDARequest) (ip : String) (ndas : List NDA),
          firstByPrimaryKey (ndas.filter fun m => m.investorID == uid) =
            some sampleExpiredNDA →
          (SignNDA uid req ip 100 ndas newID).1 ≠
            SignNDAResult.badRequest "You have already signed a valid NDA") :=
  nda_valid_iff_now_before_expiry 100 sampleExpiredNDA 50 rfl

/-- `Payment.UseCredit` never drives the counter negative: it decrements
only behind the `> 0` guard. -/
theorem useCredit_nonneg (p : Payment) (h : 0 ≤ p.projectsRemaining) :
    0 ≤ (Payment.UseCredit p).1.projectsRemaining := by
  rw [Payment.UseCredit]
  split
  · rename_i hpos
    simp only
    omega
  · simpa using h

/-- A successful `UseViewCredit` keeps every counter non-negative: the
payment it decrements satisfies `CanViewMore`, hence had a strictly
positive counter. -/
theorem useViewCredit_preserves_nonneg {inv proj : UUID} {now : Int}
    {db db' : PaymentDB} (h : nonnegRemaining db)
    (hok : UseViewCredit inv proj now db = Except.ok db') :
    nonnegRemaining db' := by
  rw [UseViewCredit] at hok
  split at hok
  · cases hok
    exact h
  · split at hok
    · cases hok
    · rename_i payment hg
      split at hok
      · rename_i hcvm
        cases hok
        intro p hp
        simp only [List.mem_map] at hp
        obtain ⟨a, ha, heq⟩ := hp
        have hpos : 0 < payment.projectsRemaining := by
          simp only [Payment.CanViewMore, Bool.and_eq_true, decide_eq_true_eq] at hcvm
          exact hcvm.2
        by_cases hid : a.id == payment.id
        · rw [if_pos hid] at heq
          rw [← heq]
          simp only
          omega
        · rw [if_neg hid] at heq
          exact heq ▸ h a ha
      · cases hok

/-- `ConfirmPayment` never touches the counters. -/
theorem confirmPayment_preserves_nonneg {pid : UUID} {now : Int}
    {db db' : PaymentDB} (h : nonnegRemaining db)
    (hok : ConfirmPayment pid now db = Except.ok db') :
    nonnegRemaining db' := by
  rw [ConfirmPayment] at hok
  split at hok
  · cases hok
  · rename_i payment hfind
    split at hok
    · cases hok
    · cases hok
      intro p hp
      simp only [List.mem_map] at hp
      obtain ⟨a, ha, heq⟩ := hp
      by_cases hid : a.id == pid
      · rw [if_pos hid] at heq
        rw [← heq]
        exact h payment (List.mem_of_find?_eq_some hfind)
      · rw [if_neg hid] at heq
        exact heq ▸ h a ha

/-- Each payment-service operation preserves non-negative counters. -/
theorem applyOp_preserves_nonneg {db : PaymentDB} (h : nonnegRemaining db)
    (op : PaymentOp) : nonnegRemaining (db.applyOp op) := by
  cases op with
  | useView inv proj now =>
    cases hr : UseViewCredit inv proj now db with
    | ok db' =>
      simpa [PaymentDB.applyOp, hr] using useViewCredit_preserves_nonneg h hr
    | error e => simpa [PaymentDB.applyOp, hr] using h
  | confirm pid now =>
    cases hr : ConfirmPayment pid now db with
    | ok db' =>
      simpa [PaymentDB.applyOp, hr] using confirmPayment_preserves_nonneg h hr
    | error e => simpa [PaymentDB.applyOp, hr] using h

/-- Any sequence of payment-service operations preserves non-negative
counters. -/
theorem applyOps_preserves_nonneg (db : PaymentDB) (ops : List PaymentOp)
    (h : nonnegRemaining db) : nonnegRemaining (db.applyOps ops) := by
  induction ops generalizing db with
  | nil => simpa [PaymentDB.applyOps] using h
  | cons op rest ih =>
    simp only [PaymentDB.applyOps, List.foldl_cons]
    exact ih (db.applyOp op) (applyOp_preserves_nonneg h op)

/-- Claim C2: starting from a store whose counters are non-negative, no
sequence of payment operations drives any `ProjectsRemaining` below zero;
and `Payment.UseCredit` on its own never produces a negative counter,
since it decrements only when the counter is strictly positive. -/
theorem projectsRemaining_never_negative
    (db : PaymentDB) (ops : List PaymentOp) (h : nonnegRemaining db) :
    nonnegRemaining (db.applyOps ops) ∧
    ∀ p : Payment, 0 ≤ p.projectsRemaining →
      0 ≤ (Payment.UseCredit p).1.projectsRemaining :=
  ⟨applyOps_preserves_nonneg db ops h, fun p hp => useCredit_nonneg p hp⟩

/-- Witness for C2: two first views and a confirmation on a fresh
four-view bundle leave every counter non-negative, as does a direct
`UseCredit`. -/
theorem projectsRemaining_never_negative_witness :
    nonnegRemaining (PaymentDB.applyOps sampleFreshDB
      [PaymentOp.useView 7 42 100, PaymentOp.useView 7 43 101,
       PaymentOp.confirm 1 102]) ∧
    0 ≤ (Payment.UseCredit samplePayment).1.projectsRemaining :=
  ⟨(projectsRemaining_never_negative sampleFreshDB
      [PaymentOp.useView 7 42 100, PaymentOp.useView 7 43 101,
       PaymentOp.confirm 1 102] (by decide)).1,
   (projectsRemaining_never_negative sampleFreshDB [] (by decide)).2
      samplePayment (by decide)⟩

/-- Claim C5: a term sheet's `completed` status tracks the presence of
both signatures.  A draft with neither signature satisfies the
equivalence, and every successful `SignTermSheet` — by either party, in
either order — preserves it for the returned sheet and for every sheet
on file, provided the submitted signature blob is non-empty (the handler's
`binding:"required"` rejects an empty one before the service runs). -/
theorem termSheet_completed_iff_both_signatures
    (tsID userID : UUID) (sig ip : String) (now : Int)
    (projects : List Project) (db : OfferDB) (ts' : TermSheet) (db' : OfferDB)
    (hsig : sig ≠ "")
    (hinv : ∀ t ∈ db.termSheets, completedIffFullySigned t)
    (hok : SignTermSheet tsID userID sig ip now projects db = Except.ok (ts', db')) :
    completedIffFullySigned ts' ∧
    (∀ t ∈ db'.termSheets, completedIffFullySigned t) ∧
    ∀ t : TermSheet, t.status = TermSheetStatus.draft →
      t.investorSignature = "" → t.developerSignature = "" →
      completedIffFullySigned t := by
  have hbase : ∀ t : TermSheet, t.status = TermSheetStatus.draft →
      t.investorSignature = "" → t.developerSignature = "" →
      completedIffFullySigned t := by
    intro t h1 h2 h3
    simp [completedIffFullySigned, TermSheet.IsFullySigned, h1, h2, h3]
  rw [SignTermSheet] at hok
  split at hok
  · cases hok
  · rename_i termSheet hfind
    have hmem : termSheet ∈ db.termSheets := List.mem_of_find?_eq_some hfind
    split at hok
    · cases hok
    · rename_i offer hofind
      split at hok
      · -- investor signing
        cases hok
        refine ⟨?_, ?_, hbase⟩
        · by_cases hdev : termSheet.developerSignature = ""
          · simp [completedIffFullySigned, TermSheet.IsFullySigned, hdev, hsig]
          · simp [completedIffFullySigned, TermSheet.IsFullySigned, hdev, hsig]
        · intro t ht
          simp only [List.mem_map] at ht
          obtain ⟨a, ha, heq⟩ := ht
          by_cases hid : a.id == termSheet.id
          · rw [if_pos hid] at heq
            rw [← heq]
            by_cases hdev : termSheet.developerSignature = ""
            · simp [completedIffFullySigned, TermSheet.IsFullySigned, hdev, hsig]
            · simp [completedIffFullySigned, TermSheet.IsFullySigned, hdev, hsig]
          · rw [if_neg hid] at heq
            exact heq ▸ hinv a ha
      · split at hok
        · rename_i project hpfind
          split at hok
          · -- developer signing
            cases hok
            have hts' : completedIffFullySigned { termSheet with
                developerSignature := sig
                developerSignedAt := some now
                developerIP := ip
                status := if termSheet.investorSignature ≠ "" then
                    TermSheetStatus.completed
                  else termSheet.status } := by
              by_cases hinvs : termSheet.investorSignature = ""
              · have hnc : termSheet.status ≠ TermSheetStatus.completed := by
                  intro hcon
                  have := (hinv termSheet hmem).mp hcon
                  simp [TermSheet.IsFullySigned, hinvs] at this
                simp [completedIffFullySigned, TermSheet.IsFullySigned, hinvs, hnc]
              · simp [completedIffFullySigned, TermSheet.IsFullySigned, hinvs, hsig]
            refine ⟨hts', ?_, hbase⟩
            intro t ht
            simp only [List.mem_map] at ht
            obtain ⟨a, ha, heq⟩ := ht
            by_cases hid : a.id == termSheet.id
            · rw [if_pos hid] at heq
              exact heq ▸ hts'
            · rw [if_neg hid] at heq
              exact heq ▸ hinv a ha
          · cases hok
        · cases hok

/-- Witness for C5: the investor signs the sample draft sheet first; the
resulting sheet and store satisfy the equivalence, as does the untouched
draft. -/
theorem termSheet_completed_iff_both_signatures_witness :
    completedIffFullySigned sampleSignedTermSheet ∧
    completedIffFullySigned sampleDraftTermSheet :=
  ⟨(termSheet_completed_iff_both_signatures 9 7 "ink" "9.9.9.9" 200 [sampleProject]
      sampleSigningDB sampleSignedTermSheet sampleSignedDB
      (by decide) (by decide) (by rfl)).1,
   (termSheet_completed_iff_both_signatures 9 7 "ink" "9.9.9.9" 200 [sampleProject]
      sampleSigningDB sampleSignedTermSheet sampleSignedDB
      (by decide) (by decide) (by rfl)).2.2 sampleDraftTermSheet rfl rfl rfl⟩

/-- Claim C6 (divergence): investor `7` holds an expired NDA (primary key
`1`) and a valid one (primary key `2`); at instant `500` the handler
consults only the first record by primary key, finds it expired, and
creates a third NDA even though an unexpired NDA is on file. -/
theorem signNDA_accepts_despite_valid_nda :
    sampleExpiredNDA.IsValid 500 = false ∧
    sampleValidNDA.IsValid 500 = true ∧
    (SignNDA 7 sampleSignNDARequest "10.0.0.2" 500
        [sampleExpiredNDA, sampleValidNDA] 3).1 = SignNDAResult.created 3 ∧
    (SignNDA 7 sampleSignNDARequest "10.0.0.2" 500
        [sampleExpiredNDA, sampleValidNDA] 3).2.length = 3 := by
  decide

/-- Claim C7: an offer that is no longer pending, or whose expiry lies in
the past, cannot be responded to: `RespondToOffer` answers a client error
and the store — the offer's status, `RespondedAt` and any term sheet —
is exactly as before. -/
theorem respondToOffer_requires_pending_unexpired
    (userID oid : UUID) (req : RespondOfferRequest) (now : Int)
    (projects : List Project) (db : OfferDB) (newTsID : UUID)
    (offer : InvestmentOffer)
    (hfind : findOfferByID oid db.offers = some offer)
    (hnot : offer.status ≠ OfferStatus.pending ∨ offer.IsExpired now = true) :
    ∃ msg, RespondToOffer userID oid req now projects db newTsID =
      (OfferResult.clientError msg, db) := by
  have hcr : offer.CanRespond now = false := by
    rw [InvestmentOffer.CanRespond]
    rcases hnot with h | h
    · simp [h]
    · simp [h]
  cases hp : findProjectByID offer.projectID projects with
  | none => exact ⟨"Offer not found", by simp [RespondToOffer, hfind, hp]⟩
  | some project =>
    by_cases hdev : project.developerID ≠ userID
    · exact ⟨"Access denied", by simp [RespondToOffer, hfind, hp, hdev]⟩
    · exact ⟨"Cannot respond to this offer",
        by simp [RespondToOffer, hfind, hp, hdev, hcr]⟩

/-- Witness for C7: the developer tries to respond again to the already
accepted sample offer; the handler refuses and the store is unchanged. -/
theorem respondToOffer_requires_pending_unexpired_witness :
    ∃ msg, RespondToOffer 3 5 sampleRespondRequest 100 [sampleProject]
      sampleRespondedOfferDB 9 =
        (OfferResult.clientError msg, sampleRespondedOfferDB) :=
  respondToOffer_requires_pending_unexpired 3 5 sampleRespondRequest 100
    [sampleProject] sampleRespondedOfferDB 9 sampleAcceptedOffer
    (by rfl) (Or.inl (by decide))

/-- Appending a fresh pending offer keeps at most one pending offer per
pair, provided the store held none for the new offer's own pair. -/
theorem pending_append_preserved {offers : List InvestmentOffer}
    {o : InvestmentOffer} (h : atMostOnePendingPerPair offers)
    (hnone : offers.any (pendingFor o.investorID o.projectID) = false) :
    atMostOnePendingPerPair (offers ++ [o]) := by
  intro inv proj
  rw [List.filter_append]
  by_cases hpend : pendingFor inv proj o = true
  · have h1 : o.investorID = inv ∧ o.projectID = proj := by
      simp only [pendingFor, Bool.and_eq_true, beq_iff_eq] at hpend
      exact ⟨hpend.1.1, hpend.1.2⟩
    have hnil : offers.filter (pendingFor inv proj) = [] := by
      rw [List.filter_eq_nil_iff]
      intro a ha
      have := List.any_eq_false.mp (h1.1 ▸ h1.2 ▸ hnone) a ha
      simpa using this
    simp [hnil, hpend]
  · have hsing : [o].filter (pendingFor inv proj) = [] := by
      simp only [List.filter, Bool.not_eq_true] at hpend ⊢
      simp [hpend]
    rw [hsing]
    simpa using h inv proj

/-- Claim C8: while a pending offer by an investor on a project is on
file, `CreateOffer` for the same pair answers a client error and writes
nothing; and `CreateOffer` preserves the at-most-one-pending-offer-per-pair
invariant. -/
theorem createOffer_at_most_one_pending
    (userID : UUID) (req : CreateOfferRequest) (now : Int)
    (projects : List Project) (db : OfferDB) (newID : UUID) :
    (db.offers.any (pendingFor userID req.projectID) = true →
      ∃ msg, CreateOffer userID req now projects db newID =
        (OfferResult.clientError msg, db)) ∧
    (atMostOnePendingPerPair db.offers →
      atMostOnePendingPerPair
        (CreateOffer userID req now projects db newID).2.offers) := by
  constructor
  · intro hany
    cases hfp : projects.find? fun p =>
        p.id == req.projectID && p.status == ProjectStatus.approved with
    | none =>
      exact ⟨"Project not found or not available", by simp [CreateOffer, hfp]⟩
    | some project =>
      by_cases hmin : req.offerAmount < project.minInvestment
      · exact ⟨"Offer below minimum investment", by simp [CreateOffer, hfp, hmin]⟩
      · exact ⟨"You already have a pending offer for this project",
          by simp [CreateOffer, hfp, hmin, hany]⟩
  · intro h
    cases hfp : projects.find? fun p =>
        p.id == req.projectID && p.status == ProjectStatus.approved with
    | none => simpa [CreateOffer, hfp] using h
    | some project =>
      by_cases hmin : req.offerAmount < project.minInvestment
      · simpa [CreateOffer, hfp, hmin] using h
      · cases hany : db.offers.any (pendingFor userID req.projectID) with
        | true => simpa [CreateOffer, hfp, hmin, hany] using h
        | false =>
          have hres : (CreateOffer userID req now projects db newID).2.offers =
              db.offers ++
                [{ id := newID, investorID := userID, projectID := req.projectID
                   offerAmount := req.offerAmount, equityRequest := req.equityRequest
                   termsNotes := req.termsNotes, status := OfferStatus.pending
                   responseNotes := "", expiresAt := some (now + offerValidityPeriod)
                   respondedAt := none }] := by
            simp [CreateOffer, hfp, hmin, hany]
          rw [hres]
          exact pending_append_preserved h hany

/-- Witness for C8: with the sample pending offer on file, a second offer
by investor `7` on project `42` is refused and the store keeps at most one
pending offer per pair. -/
theorem createOffer_at_most_one_pending_witness :
    (∃ msg, CreateOffer 7 sampleCreateOfferRequest 100 [sampleProject]
        samplePendingOfferDB 6 =
          (OfferResult.clientError msg, samplePendingOfferDB)) ∧
    atMostOnePendingPerPair
      (CreateOffer 7 sampleCreateOfferRequest 100 [sampleProject]
        samplePendingOfferDB 6).2.offers :=
  ⟨(createOffer_at_most_one_pending 7 sampleCreateOfferRequest 100 [sampleProject]
      samplePendingOfferDB 6).1 (by decide),
   (createOffer_at_most_one_pending 7 sampleCreateOfferRequest 100 [sampleProject]
      samplePendingOfferDB 6).2
     (fun inv proj =>
        le_trans (List.length_filter_le (pendingFor inv proj)
          samplePendingOfferDB.offers) (by decide))⟩

/-- Claim C9: `ApproveProject` acts only on a `pending` project — any
other status is refused with the list unchanged; rejecting without a
reason is refused with the list unchanged; approval stores `approved` with
the rejection reason cleared and the approval instant stamped; rejection
with a reason stores `rejected` with that reason. -/
theorem approveProject_requires_pending
    (pid : UUID) (req : ApproveProjectRequest) (now : Int)
    (projects : List Project) (project : Project)
    (hfind : findProjectByID pid projects = some project) :
    (project.status ≠ ProjectStatus.pending →
      ApproveProject pid req now projects =
        (ApproveResult.badRequest "Project is not pending review", projects)) ∧
    (req.approved = false → req.reason = "" →
      ∃ msg, ApproveProject pid req now projects =
        (ApproveResult.badRequest msg, projects)) ∧
    (project.status = ProjectStatus.pending → req.approved = true →
      ApproveProject pid req now projects =
        (ApproveResult.ok, projects.map fun p =>
          if p.id == project.id then
            { project with
                status := ProjectStatus.approved
                approvedAt := some now
                rejectionReason := "" }
          else p)) ∧
    (project.status = ProjectStatus.pending → req.approved = false →
      req.reason ≠ "" →
      ApproveProject pid req now projects =
        (ApproveResult.ok, projects.map fun p =>
          if p.id == project.id then
            { project with
                status := ProjectStatus.rejected
                rejectionReason := req.reason }
          else p)) := by
  refine ⟨?_, ?_, ?_, ?_⟩
  · intro hst
    simp [ApproveProject, hfind, hst]
  · intro hap hre
    by_cases hst : project.status = ProjectStatus.pending
    · exact ⟨"Rejection reason is required",
        by simp [ApproveProject, hfind, hst, hap, hre]⟩
    · exact ⟨"Project is not pending review", by simp [ApproveProject, hfind, hst]⟩
  · intro hst hap
    simp [ApproveProject, hfind, hst, hap]
  · intro hst hap hre
    simp [ApproveProject, hfind, hst, hap, hre]

/-- Witness for C9: acting on the already-approved sample project is
refused; rejecting the pending one without a reason is refused; approving
the pending one stores the `approved` status. -/
theorem approveProject_requires_pending_witness :
    ApproveProject 42 { approved := true, reason := "" } 100 [sampleProject] =
      (ApproveResult.badRequest "Project is not pending review", [sampleProject]) ∧
    (∃ msg, ApproveProject 43 { approved := false, reason := "" } 100
        [samplePendingProject] = (ApproveResult.badRequest msg, [samplePendingProject])) ∧
    ApproveProject 43 { approved := true, reason := "" } 100 [samplePendingProject] =
      (ApproveResult.ok, [samplePendingProject].map fun p =>
        if p.id == samplePendingProject.id then
          { samplePendingProject with
              status := ProjectStatus.approved
              approvedAt := some 100
              rejectionReason := "" }
        else p) :=
  ⟨(approveProject_requires_pending 42 { approved := true, reason := "" } 100
      [sampleProject] sampleProject (by rfl)).1 (by decide),
   (approveProject_requires_pending 43 { approved := false, reason := "" } 100
      [samplePendingProject] samplePendingProject (by rfl)).2.1 rfl rfl,
   (approveProject_requires_pending 43 { approved := true, reason := "" } 100
      [samplePendingProject] samplePendingProject (by rfl)).2.2.1 (by decide) rfl⟩

/-- `formatCurrency` is the branch symbol next to the formatted major
units, uniformly in the currency. -/
theorem formatCurrency_eq (amount : Int) (c : String) :
    formatCurrency amount c = currencySymbol c ++ formatFloat ((amount : ℚ) / 100) := by
  rw [formatCurrency, currencySymbol]
  split_ifs <;> rfl

/-- `int64(f)` of an integer value is that integer. -/
theorem goTrunc_intCast (k : Int) : goTrunc (k : ℚ) = k := by
  rw [goTrunc]
  split <;> simp

/-- `rune(k)` is `k` itself throughout the 32-bit range, in particular on
every Unicode code point. -/
theorem toRune_eq_self (k : Int) (h1 : -(2 ^ 31) ≤ k) (h2 : k < 2 ^ 31) :
    toRune k = k := by
  rw [toRune]
  omega

/-- `formatFloat` of a non-integral number of major units is empty. -/
theorem formatFloat_nonwhole (m : Int) (h : m % 100 ≠ 0) :
    formatFloat ((m : ℚ) / 100) = "" := by
  rw [formatFloat, if_neg]
  intro hc
  have h100 : ((100 : ℚ)) ≠ 0 := by norm_num
  have hq : (m : ℚ) = (goTrunc ((m : ℚ) / 100) : ℚ) * 100 := (div_eq_iff h100).mp hc
  have hz : m = goTrunc ((m : ℚ) / 100) * 100 := by exact_mod_cast hq
  omega

/-- Counterexample for C10 as stated: amount `5529600` cents is the whole
number `55296` of dollars, but `55296 = 0xD800` is a surrogate, not a
Unicode scalar value, so the formatted amount carries the replacement
character U+FFFD — not the character at code point `Amount/100`. -/
theorem amountFormatted_surrogate_counterexample :
    ((5529600 : Int) % 100 = 0 ∧ (5529600 : Int) / 100 = 55296) ∧
    (Payment.ToResponse { samplePayment with amount := 5529600 }).amountFormatted =
      "$" ++ String.singleton (Char.ofNat 0xFFFD) ∧
    (0xFFFD : Nat) ≠ 55296 := by
  refine ⟨by decide, ?_, by decide⟩
  have hmaj : ((5529600 : ℚ)) / 100 = ((55296 : Int) : ℚ) := by
    norm_num
  have hff : formatFloat ((5529600 : ℚ) / 100) =
      String.singleton (Char.ofNat 0xFFFD) := by
    rw [hmaj, formatFloat, goTrunc_intCast, if_pos rfl,
      toRune_eq_self 55296 (by norm_num) (by norm_num), goStringOfRune,
      if_neg (by norm_num)]
  simp [Payment.ToResponse, samplePayment, formatCurrency_eq, currencySymbol, hff]

/-- Claim C10 (amended): for a payment over a whole number of major units
whose value `Amount/100` is a Unicode scalar value, `ToResponse` formats
the amount as the currency symbol followed by the single character at code
point `Amount/100` (otherwise the replacement character appears); a
non-whole amount formats as the symbol followed by the empty string.  The
decimal digit representation is never produced. -/
theorem amountFormatted_code_point (p : Payment) (k : Int)
    (hw : p.amount = 100 * k)
    (hv : (0 ≤ k ∧ k < 0xD800) ∨ (0xDFFF < k ∧ k ≤ 0x10FFFF)) :
    (Payment.ToResponse p).amountFormatted =
      currencySymbol p.currency ++ String.singleton (Char.ofNat k.toNat) ∧
    ∀ q : Payment, q.amount % 100 ≠ 0 →
      (Payment.ToResponse q).amountFormatted = currencySymbol q.currency ++ "" := by
  constructor
  · have hmaj : ((p.amount : ℚ)) / 100 = (k : ℚ) := by
      rw [hw]
      push_cast
      ring
    have hff : formatFloat ((p.amount : ℚ) / 100) =
        String.singleton (Char.ofNat k.toNat) := by
      rw [hmaj, formatFloat, goTrunc_intCast, if_pos rfl,
        toRune_eq_self k (by omega) (by omega), goStringOfRune, if_pos hv]
    simp [Payment.ToResponse, formatCurrency_eq, hff]
  · intro q hq
    simp [Payment.ToResponse, formatCurrency_eq, formatFloat_nonwhole q.amount hq]

/-- Witness for C10 (amended): the default `$500` fee (amount `50000`
cents, `usd`) formats as `"$"` followed by the character at code point
`500`, and `50050` cents formats as just `"$"`. -/
theorem amountFormatted_code_point_witness :
    (Payment.ToResponse samplePayment).amountFormatted =
      currencySymbol samplePayment.currency ++
        String.singleton (Char.ofNat (500 : Int).toNat) ∧
    (Payment.ToResponse { samplePayment with amount := 50050 }).amountFormatted =
      currencySymbol ({ samplePayment with amount := 50050 } : Payment).currency ++ "" :=
  ⟨(amountFormatted_code_point samplePayment 500 (by decide) (by decide)).1,
   (amountFormatted_code_point samplePayment 500 (by decide) (by decide)).2
      { samplePayment with amount := 50050 } (by decide)⟩

end Ukuvago
